import Mathlib

/-!
Shallow embedding of `chem_calcs` (spectrophotometric absorbance →
concentration with uncertainty propagation, plus a dilution solver).

Python scalars are modelled as exact numbers; a raised exception
(ZeroDivisionError, math domain error, TypeError, UnboundLocalError)
is modelled as `none`.  The two calibration inverters need `Real.sqrt`,
so they live over `ℝ`; the dilution solver `conc_to_dil` involves only
field operations, so it is embedded executably over `ℚ`.
-/

namespace ChemCalcs

/-- Embedding of `calc_Si_conc_and_uncert(avg_abs, Si_yint, Si_slope,
Sxo_Si, Si_slope_err, Si_yint_err)`.  Python float division by a zero
slope raises ZeroDivisionError, hence `none` when `Si_slope = 0`. -/
noncomputable def calc_Si_conc_and_uncert (avg_abs Si_yint Si_slope Sxo_Si
    Si_slope_err Si_yint_err : ℝ) : Option (ℝ × ℝ) :=
  if Si_slope = 0 then none
  else
    let conc := (avg_abs - Si_yint) / Si_slope
    let u_abs_term := (1 / Si_slope) * Sxo_Si
    let u_slope_term := ((avg_abs - Si_yint) / Si_slope ^ 2) * Si_slope_err
    let u_yint_term := (1 / Si_slope) * Si_yint_err
    let u_combined :=
      Real.sqrt (u_abs_term ^ 2 + u_slope_term ^ 2 + u_yint_term ^ 2)
    some (conc, u_combined)

/-- Embedding of `poly_abs_to_conc(a, b, c, ABS)`.  `math.sqrt` raises a
domain error on a negative discriminant, and division by `2*a` raises
ZeroDivisionError when `a = 0`; both are `none`. -/
noncomputable def poly_abs_to_conc (a b c ABS : ℝ) : Option ℝ :=
  if b ^ 2 - 4 * a * (c - ABS) < 0 then none
  else if a = 0 then none
  else some ((-b + Real.sqrt (b ^ 2 - 4 * a * (c - ABS))) / (2 * a))

/-- Embedding of `calc_PO4_conc_and_uncert(avg_abs, a, b, c, Sxo_PO4)`:
three root evaluations (at `avg_abs`, `avg_abs ± Sxo_PO4`), a failure in
any of them propagating, then the quadrature combination. -/
noncomputable def calc_PO4_conc_and_uncert (avg_abs a b c Sxo_PO4 : ℝ) :
    Option (ℝ × ℝ) :=
  match poly_abs_to_conc a b c avg_abs with
  | none => none
  | some conc =>
    match poly_abs_to_conc a b c (avg_abs + Sxo_PO4),
          poly_abs_to_conc a b c (avg_abs - Sxo_PO4) with
    | some conc_plus, some conc_minus =>
        let u_sample := |conc_plus - conc_minus| / 2
        some (conc, Real.sqrt (Sxo_PO4 ^ 2 + u_sample ^ 2))
    | _, _ => none

/-- Python truthiness test `not x` for an argument that is either `None`
(`none`) or a number: falsy iff absent or zero. -/
def falsy : Option ℚ → Bool
  | none => true
  | some x => x = 0

/-- `x * y` on Python values: `TypeError` (`none`) if an operand is `None`. -/
def pyMul : Option ℚ → Option ℚ → Option ℚ
  | some x, some y => some (x * y)
  | _, _ => none

/-- `x / y` on Python values: `TypeError` (`none`) if an operand is `None`,
`ZeroDivisionError` (`none`) if the divisor is zero. -/
def pyDiv : Option ℚ → Option ℚ → Option ℚ
  | some x, some y => if y = 0 then none else some (x / y)
  | _, _ => none

/-- One `if not arg: output = expr` statement.  The state is `none` once
an exception has been raised, otherwise `some out` where `out` is the
current binding of `output` (`none` while still unbound). -/
def branch (cond : Bool) (expr : Option ℚ) : Option (Option ℚ) →
    Option (Option ℚ)
  | none => none
  | some out =>
    if cond then
      match expr with
      | none => none
      | some v => some (some v)
    else some out

/-- Embedding of `conc_to_dil(c1, v1, c2, v2)`: four sequential
falsy-checked assignments to `output`, then `return output`
(UnboundLocalError, i.e. `none`, if no branch assigned it). -/
def conc_to_dil (c1 v1 c2 v2 : Option ℚ) : Option ℚ :=
  match (branch (falsy v2) (pyDiv (pyMul c1 v1) c2)
          (branch (falsy v1) (pyDiv (pyMul c2 v2) c1)
            (branch (falsy c2) (pyDiv (pyMul c1 v1) v2)
              (branch (falsy c1) (pyDiv (pyMul c2 v2) v1)
                (some none))))) with
  | some (some r) => some r
  | _ => none

/-- From the spec's words: solve the dilution identity for the first
falsy argument in checking order (`c1`, `c2`, `v1`, `v2`), using the
other three values. -/
def solveFirstFalsy (c1 v1 c2 v2 : Option ℚ) : Option ℚ :=
  if falsy c1 then pyDiv (pyMul c2 v2) v1
  else if falsy c2 then pyDiv (pyMul c1 v1) v2
  else if falsy v1 then pyDiv (pyMul c2 v2) c1
  else if falsy v2 then pyDiv (pyMul c1 v1) c2
  else none

end ChemCalcs

namespace ChemCalcs

/-- C5: `poly_abs_to_conc(a, b, c, A)` fails (raises, i.e. returns
`none` in the embedding — never a silent complex or NaN value) exactly
when the discriminant `b^2 - 4*a*(c - A)` is negative or `a = 0`. -/
theorem C5_poly_abs_to_conc_domain_error (a b c A : ℝ) :
    poly_abs_to_conc a b c A = none ↔ b ^ 2 - 4 * a * (c - A) < 0 ∨ a = 0 := by
  unfold poly_abs_to_conc
  split_ifs with h1 h2 <;> simp_all

/-- C6: `calc_Si_conc_and_uncert` fails with a division-by-zero error
exactly when the slope is zero; for every nonzero slope it returns a
defined `(conc, u_combined)` pair. -/
theorem C6_calc_Si_zero_slope (avg_abs Si_yint Si_slope Sxo_Si
    Si_slope_err Si_yint_err : ℝ) :
    calc_Si_conc_and_uncert avg_abs Si_yint Si_slope Sxo_Si Si_slope_err
      Si_yint_err = none ↔ Si_slope = 0 := by
  unfold calc_Si_conc_and_uncert
  split_ifs with h <;> simp_all

/-- C1: for every nonzero slope `m`, `calc_Si_conc_and_uncert` returns
`conc = (A - b0) / m` and
`u_combined = sqrt((s_blank/m)^2 + (((A - b0)/m^2) * s_m)^2 + (s_b0/m)^2)`;
with all three error inputs zero the concentration is exact and the
uncertainty vanishes. -/
theorem C1_calc_Si_formula (A b0 m s_blank s_m s_b0 : ℝ) (hm : m ≠ 0) :
    calc_Si_conc_and_uncert A b0 m s_blank s_m s_b0 =
      some ((A - b0) / m,
        Real.sqrt ((s_blank / m) ^ 2 + (((A - b0) / m ^ 2) * s_m) ^ 2 +
          (s_b0 / m) ^ 2)) ∧
    calc_Si_conc_and_uncert A b0 m 0 0 0 = some ((A - b0) / m, 0) := by
  constructor
  · unfold calc_Si_conc_and_uncert
    rw [if_neg hm]
    have h1 : (1 / m) * s_blank = s_blank / m := by ring
    have h2 : (1 / m) * s_b0 = s_b0 / m := by ring
    rw [h1, h2]
  · unfold calc_Si_conc_and_uncert
    rw [if_neg hm]
    simp

theorem C1_calc_Si_formula_witness :
    calc_Si_conc_and_uncert 3 1 2 5 0 0 =
      some ((3 - 1) / 2,
        Real.sqrt (((5 : ℝ) / 2) ^ 2 + ((((3 : ℝ) - 1) / 2 ^ 2) * 0) ^ 2 +
          ((0 : ℝ) / 2) ^ 2)) ∧
    calc_Si_conc_and_uncert 3 1 2 0 0 0 = some ((3 - 1) / 2, 0) :=
  C1_calc_Si_formula 3 1 2 5 0 0 (by norm_num)

/-- C2: for `a ≠ 0` and non-negative discriminant,
`poly_abs_to_conc(a, b, c, A)` returns the positive-branch root
`(-b + sqrt(b^2 - 4a(c - A))) / (2a)`, and that returned value `r`
satisfies `a*r^2 + b*r + (c - A) = 0` over the reals. -/
theorem C2_poly_abs_to_conc_root (a b c A : ℝ) (ha : a ≠ 0)
    (hd : 0 ≤ b ^ 2 - 4 * a * (c - A)) :
    poly_abs_to_conc a b c A =
      some ((-b + Real.sqrt (b ^ 2 - 4 * a * (c - A))) / (2 * a)) ∧
    ∀ r, poly_abs_to_conc a b c A = some r →
      a * r ^ 2 + b * r + (c - A) = 0 := by
  have heq : poly_abs_to_conc a b c A =
      some ((-b + Real.sqrt (b ^ 2 - 4 * a * (c - A))) / (2 * a)) := by
    unfold poly_abs_to_conc
    rw [if_neg (not_lt.mpr hd), if_neg ha]
  refine ⟨heq, fun r hr => ?_⟩
  rw [heq] at hr
  have hsq : Real.sqrt (b ^ 2 - 4 * a * (c - A)) ^ 2 =
      b ^ 2 - 4 * a * (c - A) := Real.sq_sqrt hd
  have hr' : r = (-b + Real.sqrt (b ^ 2 - 4 * a * (c - A))) / (2 * a) :=
    (Option.some_inj.mp hr).symm
  subst hr'
  field_simp
  nlinarith [hsq]

/-- Helper: the quadratic root call succeeds with the closed-form value
whenever `a ≠ 0` and the discriminant is non-negative. -/
lemma poly_abs_to_conc_some (a b c A : ℝ) (ha : a ≠ 0)
    (hd : 0 ≤ b ^ 2 - 4 * a * (c - A)) :
    poly_abs_to_conc a b c A =
      some ((-b + Real.sqrt (b ^ 2 - 4 * a * (c - A))) / (2 * a)) := by
  unfold poly_abs_to_conc
  rw [if_neg (not_lt.mpr hd), if_neg ha]

/-- Helper: `calc_PO4_conc_and_uncert` in terms of the three root
evaluations, when all of them succeed. -/
lemma calc_PO4_spec (avg_abs a b c Sxo_PO4 c0 cp cm : ℝ)
    (h0 : poly_abs_to_conc a b c avg_abs = some c0)
    (hp : poly_abs_to_conc a b c (avg_abs + Sxo_PO4) = some cp)
    (hm : poly_abs_to_conc a b c (avg_abs - Sxo_PO4) = some cm) :
    calc_PO4_conc_and_uncert avg_abs a b c Sxo_PO4 =
      some (c0, Real.sqrt (Sxo_PO4 ^ 2 + (|cp - cm| / 2) ^ 2)) := by
  unfold calc_PO4_conc_and_uncert
  rw [h0, hp, hm]

/-- Helper: a concrete root evaluation used by witnesses:
`poly_abs_to_conc(1, 1, 0, 0) = (-1 + sqrt 1) / 2 = 0`. -/
lemma poly_abs_to_conc_1100 : poly_abs_to_conc 1 1 0 0 = some 0 := by
  rw [poly_abs_to_conc_some 1 1 0 0 (by norm_num) (by norm_num)]
  norm_num

theorem C2_poly_abs_to_conc_root_witness :
    poly_abs_to_conc 1 0 0 4 =
      some ((-0 + Real.sqrt ((0 : ℝ) ^ 2 - 4 * 1 * (0 - 4))) / (2 * 1)) ∧
    ∀ r, poly_abs_to_conc 1 0 0 4 = some r →
      1 * r ^ 2 + 0 * r + ((0 : ℝ) - 4) = 0 :=
  C2_poly_abs_to_conc_root 1 0 0 4 (by norm_num) (by norm_num)

/-- C3: whenever the three root evaluations (at `A`, `A + s_blank`,
`A - s_blank`) are defined, `calc_PO4_conc_and_uncert` returns the root
at `A` as the concentration and
`u_combined = sqrt(s_blank^2 + u_sample^2)` with
`u_sample = |conc(A+s_blank) - conc(A-s_blank)| / 2`. -/
theorem C3_calc_PO4_formula (A a b c s_blank c0 cp cm : ℝ)
    (h0 : poly_abs_to_conc a b c A = some c0)
    (hp : poly_abs_to_conc a b c (A + s_blank) = some cp)
    (hm : poly_abs_to_conc a b c (A - s_blank) = some cm) :
    calc_PO4_conc_and_uncert A a b c s_blank =
      some (c0, Real.sqrt (s_blank ^ 2 + (|cp - cm| / 2) ^ 2)) :=
  calc_PO4_spec A a b c s_blank c0 cp cm h0 hp hm

theorem C3_calc_PO4_formula_witness :
    calc_PO4_conc_and_uncert 0 1 1 0 0 =
      some (0, Real.sqrt ((0 : ℝ) ^ 2 + (|(0 : ℝ) - 0| / 2) ^ 2)) :=
  C3_calc_PO4_formula 0 1 1 0 0 0 0 0 poly_abs_to_conc_1100
    (by rw [add_zero]; exact poly_abs_to_conc_1100)
    (by rw [sub_zero]; exact poly_abs_to_conc_1100)

/-- C8: with `s_blank = 0` (and `a ≠ 0`, non-negative discriminant so
the call succeeds), the combined uncertainty returned by
`calc_PO4_conc_and_uncert` is zero. -/
theorem C8_calc_PO4_zero_blank (A a b c : ℝ) (ha : a ≠ 0)
    (hd : 0 ≤ b ^ 2 - 4 * a * (c - A)) :
    ∃ conc, calc_PO4_conc_and_uncert A a b c 0 = some (conc, 0) := by
  set r := (-b + Real.sqrt (b ^ 2 - 4 * a * (c - A))) / (2 * a) with hr
  have h0 : poly_abs_to_conc a b c A = some r := poly_abs_to_conc_some a b c A ha hd
  refine ⟨r, ?_⟩
  have h := calc_PO4_spec A a b c 0 r r r h0
    (by rw [add_zero]; exact h0) (by rw [sub_zero]; exact h0)
  rw [h]
  norm_num

theorem C8_calc_PO4_zero_blank_witness :
    ∃ conc, calc_PO4_conc_and_uncert 0 1 1 0 0 = some (conc, 0) :=
  C8_calc_PO4_zero_blank 0 1 1 0 (by norm_num) (by norm_num)

/-- C9: on every input for which a result is returned, the combined
uncertainty produced by `calc_Si_conc_and_uncert` and by
`calc_PO4_conc_and_uncert` is non-negative (a square root). -/
theorem C9_uncertainty_nonneg :
    (∀ A b0 m s_blank s_m s_b0 p,
      calc_Si_conc_and_uncert A b0 m s_blank s_m s_b0 = some p → 0 ≤ p.2) ∧
    (∀ A a b c s_blank p,
      calc_PO4_conc_and_uncert A a b c s_blank = some p → 0 ≤ p.2) := by
  constructor
  · intro A b0 m s_blank s_m s_b0 p h
    unfold calc_Si_conc_and_uncert at h
    split_ifs at h
    obtain rfl : _ = p := Option.some_inj.mp h
    exact Real.sqrt_nonneg _
  · intro A a b c s_blank p h
    unfold calc_PO4_conc_and_uncert at h
    cases h0 : poly_abs_to_conc a b c A <;> rw [h0] at h
    · exact absurd h (by simp)
    cases hp : poly_abs_to_conc a b c (A + s_blank) <;> rw [hp] at h <;>
      cases hm : poly_abs_to_conc a b c (A - s_blank) <;> rw [hm] at h <;>
        simp only [] at h
    · exact absurd h (by simp)
    · exact absurd h (by simp)
    · exact absurd h (by simp)
    · obtain rfl : _ = p := Option.some_inj.mp h
      exact Real.sqrt_nonneg _

theorem C9_uncertainty_nonneg_witness :
    (0 ≤ (((3 : ℝ) - 1) / 2, (0 : ℝ)).2) ∧
    (0 ≤ ((0 : ℝ), Real.sqrt ((0 : ℝ) ^ 2 + (|(0 : ℝ) - 0| / 2) ^ 2)).2) :=
  ⟨C9_uncertainty_nonneg.1 3 1 2 0 0 0 _
      (by
        unfold calc_Si_conc_and_uncert
        norm_num),
    C9_uncertainty_nonneg.2 0 1 1 0 0 _
      (calc_PO4_spec 0 1 1 0 0 0 0 0 poly_abs_to_conc_1100
        (by rw [add_zero]; exact poly_abs_to_conc_1100)
        (by rw [sub_zero]; exact poly_abs_to_conc_1100))⟩

/-- C4: whenever `conc_to_dil` returns a value, that value is the one
obtained by solving the dilution identity for the first falsy argument
in checking order (`c1`, `c2`, `v1`, `v2`) from the other three values
— in particular also when more than one argument is falsy. -/
theorem C4_conc_to_dil_first_falsy (c1 v1 c2 v2 : Option ℚ) (r : ℚ)
    (h : conc_to_dil c1 v1 c2 v2 = some r) :
    solveFirstFalsy c1 v1 c2 v2 = some r := by
  rcases c1 with _ | a <;> rcases v1 with _ | b <;>
    rcases c2 with _ | d <;> rcases v2 with _ | e <;>
    simp_all [conc_to_dil, solveFirstFalsy, branch, falsy, pyMul, pyDiv] <;>
    split_ifs at h ⊢ <;> simp_all
  all_goals rw [← h]; simp

theorem C4_conc_to_dil_first_falsy_witness :
    solveFirstFalsy (some 0) (some 2) (some 0) (some 50) = some 0 :=
  C4_conc_to_dil_first_falsy (some 0) (some 2) (some 0) (some 50) 0
    (by simp [conc_to_dil, branch, falsy, pyMul, pyDiv])

/-- C7: for each of the four solve branches (exactly one argument
omitted, the other three supplied and non-zero), substituting the value
returned by `conc_to_dil` for the omitted variable satisfies the
dilution identity `c1*v1 = c2*v2`. -/
theorem C7_conc_to_dil_round_trip (c1 v1 c2 v2 : ℚ) (h1 : c1 ≠ 0)
    (h2 : v1 ≠ 0) (h3 : c2 ≠ 0) (h4 : v2 ≠ 0) :
    (conc_to_dil none (some v1) (some c2) (some v2) = some (c2 * v2 / v1) ∧
      (c2 * v2 / v1) * v1 = c2 * v2) ∧
    (conc_to_dil (some c1) none (some c2) (some v2) = some (c2 * v2 / c1) ∧
      c1 * (c2 * v2 / c1) = c2 * v2) ∧
    (conc_to_dil (some c1) (some v1) none (some v2) = some (c1 * v1 / v2) ∧
      c1 * v1 = (c1 * v1 / v2) * v2) ∧
    (conc_to_dil (some c1) (some v1) (some c2) none = some (c1 * v1 / c2) ∧
      c1 * v1 = c2 * (c1 * v1 / c2)) := by
  refine ⟨⟨?_, ?_⟩, ⟨?_, ?_⟩, ⟨?_, ?_⟩, ⟨?_, ?_⟩⟩ <;>
    simp_all [conc_to_dil, branch, falsy, pyMul, pyDiv] <;> field_simp

theorem C7_conc_to_dil_round_trip_witness :
    (conc_to_dil none (some 2) (some 3) (some 4) = some (3 * 4 / 2) ∧
      ((3 : ℚ) * 4 / 2) * 2 = 3 * 4) ∧
    (conc_to_dil (some 5) none (some 3) (some 4) = some (3 * 4 / 5) ∧
      (5 : ℚ) * (3 * 4 / 5) = 3 * 4) ∧
    (conc_to_dil (some 5) (some 2) none (some 4) = some (5 * 2 / 4) ∧
      (5 : ℚ) * 2 = (5 * 2 / 4) * 4) ∧
    (conc_to_dil (some 5) (some 2) (some 3) none = some (5 * 2 / 3) ∧
      (5 : ℚ) * 2 = 3 * (5 * 2 / 3)) :=
  C7_conc_to_dil_round_trip 5 2 3 4 (by norm_num) (by norm_num)
    (by norm_num) (by norm_num)

/-- C10: when all four arguments are truthy no branch assigns `output`,
so the call fails (UnboundLocalError, `none` in the embedding) instead
of returning a value; `conc_to_dil` returns a value only when at least
one argument is falsy. -/
theorem C10_conc_to_dil_all_truthy (c1 v1 c2 v2 : Option ℚ) :
    (falsy c1 = false → falsy v1 = false → falsy c2 = false →
      falsy v2 = false → conc_to_dil c1 v1 c2 v2 = none) ∧
    (∀ r, conc_to_dil c1 v1 c2 v2 = some r →
      falsy c1 = true ∨ falsy v1 = true ∨ falsy c2 = true ∨
        falsy v2 = true) := by
  constructor
  · intro h1 h2 h3 h4
    simp [conc_to_dil, branch, h1, h2, h3, h4]
  · intro r h
    by_cases h1 : falsy c1 = true
    · exact Or.inl h1
    by_cases h2 : falsy v1 = true
    · exact Or.inr (Or.inl h2)
    by_cases h3 : falsy c2 = true
    · exact Or.inr (Or.inr (Or.inl h3))
    by_cases h4 : falsy v2 = true
    · exact Or.inr (Or.inr (Or.inr h4))
    rw [conc_to_dil] at h
    simp only [Bool.not_eq_true] at h1 h2 h3 h4
    simp [branch, h1, h2, h3, h4] at h

theorem C10_conc_to_dil_all_truthy_witness :
    conc_to_dil (some 1) (some 2) (some 3) (some 4) = none :=
  (C10_conc_to_dil_all_truthy (some 1) (some 2) (some 3) (some 4)).1
    (by decide) (by decide) (by decide) (by decide)

end ChemCalcs
